import Mathlib

/-!
# Verification of the E2E-EKS-GitOps ML platform against its specification

Shallow embedding, in Lean 4, of the parts of the repository's Python code
that the specification's claims talk about:

* `src/ml-platform/src/monitoring/model_monitor.py` (statistical monitor,
  health policy, monitoring history);
* `src/ml-platform/src/monitoring/monitoring_service.py` (HTTP handlers and
  model-key resolution);
* `src/gitops/tests/test_gitops_controller_health.py` (deployment health
  predicate);
* `src/ml-platform/src/utils/config_manager.py` (configuration record,
  validation, deep merge);
* `src/ml-platform/src/utils/monitoring.py` (lightweight baseline monitor);
* `src/ml-platform/src/pipelines/training_pipeline.py` (`split_data`);
* `src/ml-platform/src/pipelines/inference_pipeline.py`
  (`get_inference_stats`).

Python floats are modelled as rationals (`ℚ`), Python dicts as
insertion-ordered association lists, Python `None`-able values as `Option`,
and raised exceptions as `Except` values.
-/

namespace MLPlatform

/-! ## Statistical model monitor (`model_monitor.py`)

`_determine_health` reads the assembled results dict.  The `data_drift`
block may be absent (`results.get("data_drift", {})` then yields `{}` and
every inner `.get` its default), as may the `model_performance` block. -/

/-- The `data_drift` sub-dict of a monitoring result, as produced by the
drift detector: a dataset-level drift boolean and the drifted-column share. -/
structure DriftBlock where
  dataset_drift : Bool
  drift_share : ℚ
  deriving Repr, DecidableEq

/-- The `model_performance` sub-dict: only the `performance_degradation`
percentage is read by the health policy. -/
structure PerfBlock where
  performance_degradation : ℚ
  deriving Repr, DecidableEq

/-- Embedding of `ModelMonitor._determine_health`
(`model_monitor.py`, lines 193–213).  The first Python `if`-block can
`return` early or fall through; the fall-through is modelled by an
intermediate `Option String`. -/
def determineHealth (drift : Option DriftBlock) (perf : Option PerfBlock) : String :=
  let datasetDrift : Bool := ((drift.map (·.dataset_drift)).getD false)
  let fromDrift : Option String :=
    if datasetDrift then
      let driftShare : ℚ := (drift.map (·.drift_share)).getD 0
      if driftShare > 1/2 then some "critical"
      else if driftShare > 3/10 then some "warning"
      else none
    else none
  match fromDrift with
  | some s => s
  | none =>
    let degradation : ℚ := (perf.map (·.performance_degradation)).getD 0
    if degradation > 20 then "critical"
    else if degradation > 10 then "warning"
    else "healthy"

/-- The health policy as the specification words it: a flat ordered chain of
conditions, first match wins. -/
def healthPolicySpec (datasetDrift : Bool) (driftShare degradation : ℚ) : String :=
  if datasetDrift = true ∧ driftShare > 1/2 then "critical"
  else if datasetDrift = true ∧ driftShare > 3/10 then "warning"
  else if degradation > 20 then "critical"
  else if degradation > 10 then "warning"
  else "healthy"

/-- A monitoring result as assembled by `ModelMonitor.run_monitoring`:
the drift block is always present (the detector always runs), the
performance block only when requested and the target column is present,
and `health_status` is derived by `_determine_health`. -/
structure MonitoringResults where
  data_drift : DriftBlock
  model_performance : Option PerfBlock
  health_status : String
  deriving Repr, DecidableEq

/-- Embedding of `ModelMonitor.run_monitoring` (`model_monitor.py`,
lines 95–138), restricted to the state it manipulates: it assembles the
results record, derives `health_status` via `_determine_health`, and appends
the record to `_monitoring_history`.  Returns the new result together with
the updated history. -/
def run_monitoring (drift : DriftBlock) (perf : Option PerfBlock)
    (history : List MonitoringResults) :
    MonitoringResults × List MonitoringResults :=
  let results : MonitoringResults :=
    { data_drift := drift
      model_performance := perf
      health_status := determineHealth (some drift) perf }
  (results, history ++ [results])

end MLPlatform

namespace MLPlatform

/-- C1. The health status derived by the monitor follows the spec's ordered
policy with first match winning, and the four concrete spec scenarios
resolve as stated. -/
theorem health_follows_ordered_policy :
    (∀ (d : DriftBlock) (perf : Option PerfBlock) (h : List MonitoringResults),
      (run_monitoring d perf h).1.health_status =
        healthPolicySpec d.dataset_drift d.drift_share
          ((perf.map (·.performance_degradation)).getD 0))
    ∧ (run_monitoring ⟨true, 3/5⟩ none []).1.health_status = "critical"
    ∧ (run_monitoring ⟨true, 7/20⟩ none []).1.health_status = "warning"
    ∧ (run_monitoring ⟨false, 0⟩ (some ⟨25⟩) []).1.health_status = "critical"
    ∧ (run_monitoring ⟨false, 0⟩ none []).1.health_status = "healthy" := by
  refine ⟨?_, by norm_num [run_monitoring, determineHealth],
    by norm_num [run_monitoring, determineHealth],
    by norm_num [run_monitoring, determineHealth],
    by norm_num [run_monitoring, determineHealth]⟩
  intro d perf h
  simp only [run_monitoring, determineHealth, healthPolicySpec, Option.map_some,
    Option.getD_some]
  rcases d with ⟨dd, ds⟩
  cases dd <;> simp <;> split_ifs <;> simp_all

end MLPlatform

namespace MLPlatform

/-! ## Monitoring HTTP service (`monitoring_service.py`)

Handlers are modelled by the HTTP status code they produce.  A raised
Python exception is an `Except.error`; FastAPI's `HTTPException` subclasses
`Exception`, so a bare `except Exception` clause catches it like any other
exception. -/

/-- A raised Python exception: either FastAPI's `HTTPException` carrying a
status code, or any other exception. -/
inductive PyExc where
  | http (status : Nat) (detail : String)
  | other (msg : String)
  deriving Repr, DecidableEq

/-- Python's `str.endswith`, on code points. -/
def pyEndsWith (s suffix : String) : Bool :=
  suffix.data.isSuffixOf s.data

/-- Python's `str.startswith`, on code points. -/
def pyStartsWith (s pre : String) : Bool :=
  pre.data.isPrefixOf s.data

/-- Embedding of the `POST /models/register` handler
(`monitoring_service.py`, lines 86–130), reduced to the HTTP status code it
answers with.  `readOk` abstracts whether reading the reference file
succeeds.  The whole body runs inside `try`; the trailing
`except Exception as e: raise HTTPException(500, str(e))` catches **every**
exception raised in the body — including the `HTTPException(400, ...)`
raised for an unsupported extension, since `HTTPException` is an
`Exception` — and answers 500. -/
def register_model_status (reference_data_path : String) (readOk : Bool) : Nat :=
  let tryBody : Except PyExc Unit :=
    if pyEndsWith reference_data_path ".csv" then
      if readOk then .ok () else .error (.other "read_csv failed")
    else if pyEndsWith reference_data_path ".parquet" then
      if readOk then .ok () else .error (.other "read_parquet failed")
    else
      .error (.http 400 "Unsupported file format")
  match tryBody with
  | .ok _ => 200
  | .error _ => 500

/-- Embedding of the `POST /monitoring/run` handler
(`monitoring_service.py`, lines 133–183), reduced to its HTTP status code.
The model lookup happens **before** the `try`, so its 404 escapes; the
`HTTPException(400, "No current data provided")` is raised inside the
`try` and is caught by `except Exception`, which answers 500. -/
def run_monitoring_status (modelFound hasPath hasInline loadOk : Bool) : Nat :=
  if ¬ modelFound then 404
  else
    let tryBody : Except PyExc Unit :=
      if hasPath then
        if loadOk then .ok () else .error (.other "load failed")
      else if hasInline then .ok ()
      else .error (.http 400 "No current data provided")
    match tryBody with
    | .ok _ => 200
    | .error _ => 500

end MLPlatform

namespace MLPlatform

/-- C2 (code bug).  Evaluating the handlers at the claim's inputs: a
registration whose reference path ends in `.txt` answers 500, not 400, and
a monitoring run with a registered model but neither `current_data_path`
nor `current_data` answers 500, not 400.  The `HTTPException(400, ...)`
raised in each body is swallowed by the handler's own
`except Exception` clause and re-raised as a 500. -/
theorem register_and_run_answer_500_not_400 :
    register_model_status "s3://bucket/ref.txt" true = 500
    ∧ run_monitoring_status true false false true = 500 := by
  constructor <;> rfl

end MLPlatform

namespace MLPlatform

/-! ## Inference pipeline statistics (`inference_pipeline.py`) -/

/-- The `inference_stats` counters of the Inference Pipeline
(`inference_pipeline.py`, lines 48–52). -/
structure InferenceStats where
  total_predictions : Nat
  total_inference_time : ℚ
  error_count : Nat
  deriving Repr, DecidableEq

/-- The dict returned by `get_inference_stats`: a copy of the counters plus
the two derived fields. -/
structure InferenceStatsReport where
  total_predictions : Nat
  total_inference_time : ℚ
  error_count : Nat
  avg_inference_time_per_prediction : ℚ
  error_rate : ℚ
  deriving Repr, DecidableEq

/-- Embedding of `InferencePipeline.get_inference_stats`
(`inference_pipeline.py`, lines 314–327).  The Python method copies the
stats dict, adds the derived fields, and returns the copy; the pipeline's
own counters are untouched, which the embedding expresses by returning the
(unchanged) counter state alongside the report. -/
def get_inference_stats (s : InferenceStats) : InferenceStatsReport × InferenceStats :=
  let report : InferenceStatsReport :=
    if s.total_predictions > 0 then
      { total_predictions := s.total_predictions
        total_inference_time := s.total_inference_time
        error_count := s.error_count
        avg_inference_time_per_prediction :=
          s.total_inference_time / (s.total_predictions : ℚ)
        error_rate := (s.error_count : ℚ) / (s.total_predictions : ℚ) }
    else
      { total_predictions := s.total_predictions
        total_inference_time := s.total_inference_time
        error_count := s.error_count
        avg_inference_time_per_prediction := 0
        error_rate := 0 }
  (report, s)

end MLPlatform

namespace MLPlatform

/-- C10.  `get_inference_stats` never divides by zero: with zero total
predictions both derived fields are 0, otherwise they are exactly
`total_inference_time / total_predictions` and
`error_count / total_predictions`; and the underlying counters are
returned unchanged. -/
theorem get_inference_stats_safe (s : InferenceStats) :
    (s.total_predictions = 0 →
      (get_inference_stats s).1.avg_inference_time_per_prediction = 0
      ∧ (get_inference_stats s).1.error_rate = 0)
    ∧ (s.total_predictions ≠ 0 →
      (get_inference_stats s).1.avg_inference_time_per_prediction =
        s.total_inference_time / (s.total_predictions : ℚ)
      ∧ (get_inference_stats s).1.error_rate =
        (s.error_count : ℚ) / (s.total_predictions : ℚ))
    ∧ (get_inference_stats s).2 = s := by
  refine ⟨fun h => ?_, fun h => ?_, rfl⟩
  · simp [get_inference_stats, h]
  · simp [get_inference_stats, Nat.pos_of_ne_zero h]

/-- Witness for C10: concrete evaluations at zero and nonzero counters. -/
theorem get_inference_stats_safe_witness :
    ((get_inference_stats ⟨0, 5, 2⟩).1.avg_inference_time_per_prediction = 0
      ∧ (get_inference_stats ⟨0, 5, 2⟩).1.error_rate = 0)
    ∧ ((get_inference_stats ⟨4, 6, 1⟩).1.avg_inference_time_per_prediction = 6 / 4
      ∧ (get_inference_stats ⟨4, 6, 1⟩).1.error_rate = 1 / 4) :=
  ⟨(get_inference_stats_safe ⟨0, 5, 2⟩).1 rfl,
   (get_inference_stats_safe ⟨4, 6, 1⟩).2.1 (by decide)⟩

end MLPlatform

namespace MLPlatform

/-! ## Model-key resolution (`monitoring_service.py`) -/

/-- Embedding of `_find_model_key` (`monitoring_service.py`, lines 257–264).
The registry's keys are taken in the dict's insertion order: an exact key
match wins, otherwise the first key starting with `"<name>:"`. -/
def find_model_key (keys : List String) (model_name : String) : Option String :=
  if model_name ∈ keys then some model_name
  else keys.find? (fun key => pyStartsWith key (model_name ++ ":"))

/-- Status code of a model-scoped endpoint (e.g.
`GET /models/{model_name}/history`, `monitoring_service.py`,
lines 213–222): 404 when `_find_model_key` finds nothing, otherwise it
proceeds (200). -/
def model_endpoint_status (keys : List String) (model_name : String) : Nat :=
  match find_model_key keys model_name with
  | none => 404
  | some _ => 200

/-- The spec's match condition on a stored key: the key is the given name
followed by `:` and a remainder, i.e. some prefix of the key ending right
before a `:` equals the name. -/
def keyMatchesName (key model_name : String) : Prop :=
  ∃ rest : List Char, key.data = (model_name ++ ":").data ++ rest

instance (key model_name : String) : Decidable (keyMatchesName key model_name) :=
  decidable_of_iff ((model_name ++ ":").data <+: key.data)
    ⟨fun ⟨t, ht⟩ => ⟨t, ht.symm⟩, fun ⟨t, ht⟩ => ⟨t, ht.symm⟩⟩

/-- `pyStartsWith` agrees with the spec-level match condition. -/
lemma pyStartsWith_iff_keyMatchesName (key model_name : String) :
    pyStartsWith key (model_name ++ ":") = true ↔ keyMatchesName key model_name := by
  unfold pyStartsWith keyMatchesName
  rw [List.isPrefixOf_iff_prefix]
  exact ⟨fun ⟨t, ht⟩ => ⟨t, ht.symm⟩, fun ⟨t, ht⟩ => ⟨t, ht.symm⟩⟩

/-- First-match characterization of `List.find?`. -/
lemma find?_eq_some_iff_first {α : Type _} (p : α → Bool) :
    ∀ (l : List α) (a : α),
      l.find? p = some a ↔
        p a = true ∧ ∃ pre post, l = pre ++ a :: post ∧ ∀ x ∈ pre, p x = false := by
  intro l
  induction l with
  | nil => intro a; simp
  | cons b t ih =>
    intro a
    by_cases hb : p b = true
    · rw [List.find?_cons_of_pos _ hb]
      constructor
      · rintro h
        injection h with h
        subst h
        exact ⟨hb, [], t, rfl, by simp⟩
      · rintro ⟨hpa, pre, post, hsplit, hpre⟩
        match pre, hsplit with
        | [], hsplit =>
          injection hsplit with h1 _
          rw [h1]
        | b' :: pre', hsplit =>
          injection hsplit with h1 h2
          subst h1
          have := hpre b (by simp)
          rw [this] at hb
          exact absurd hb (by simp)
    · have hb' : p b = false := by
        cases h : p b
        · rfl
        · exact absurd h hb
      rw [List.find?_cons_of_neg _ hb]
      rw [ih a]
      constructor
      · rintro ⟨hpa, pre, post, hsplit, hpre⟩
        refine ⟨hpa, b :: pre, post, by rw [hsplit]; rfl, ?_⟩
        intro x hx
        rcases List.mem_cons.mp hx with hx | hx
        · rw [hx]; exact hb'
        · exact hpre x hx
      · rintro ⟨hpa, pre, post, hsplit, hpre⟩
        match pre, hsplit with
        | [], hsplit =>
          injection hsplit with h1 _
          subst h1
          rw [hpa] at hb'
          exact absurd hb' (by simp)
        | b' :: pre', hsplit =>
          injection hsplit with h1 h2
          exact ⟨hpa, pre', post, h2, fun x hx => hpre x (by simp [hx])⟩

end MLPlatform

namespace MLPlatform

/-- C5.  Model-key resolution: an exact stored key wins; otherwise the
result is the first stored key of the form `<name>:<rest>` (no earlier
stored key having that form); when nothing matches, the model-scoped
endpoint answers 404. -/
theorem find_model_key_resolution (keys : List String) (model_name : String) :
    (model_name ∈ keys → find_model_key keys model_name = some model_name)
    ∧ (model_name ∉ keys → ∀ key,
        find_model_key keys model_name = some key ↔
          keyMatchesName key model_name
          ∧ ∃ pre post, keys = pre ++ key :: post
              ∧ ∀ k ∈ pre, ¬ keyMatchesName k model_name)
    ∧ (find_model_key keys model_name = none →
        model_endpoint_status keys model_name = 404) := by
  refine ⟨fun hmem => ?_, fun hmem key => ?_, fun hnone => ?_⟩
  · simp [find_model_key, hmem]
  · rw [show find_model_key keys model_name
        = keys.find? (fun key => pyStartsWith key (model_name ++ ":")) by
      simp [find_model_key, hmem]]
    rw [find?_eq_some_iff_first]
    constructor
    · rintro ⟨hp, pre, post, hsplit, hpre⟩
      refine ⟨(pyStartsWith_iff_keyMatchesName key model_name).mp hp,
        pre, post, hsplit, fun k hk hmatch => ?_⟩
      have := hpre k hk
      rw [(pyStartsWith_iff_keyMatchesName k model_name).mpr hmatch] at this
      exact absurd this (by simp)
    · rintro ⟨hmatch, pre, post, hsplit, hpre⟩
      refine ⟨(pyStartsWith_iff_keyMatchesName key model_name).mpr hmatch,
        pre, post, hsplit, fun k hk => ?_⟩
      have := hpre k hk
      cases h : pyStartsWith k (model_name ++ ":")
      · rfl
      · exact absurd ((pyStartsWith_iff_keyMatchesName k model_name).mp h) this
  · simp [model_endpoint_status, hnone]

/-- Witness for C5: with stored keys `["fraud:1", "churn:2"]`, the name
`"churn"` resolves to `"churn:2"` by prefix, the exact key `"fraud:1"`
resolves to itself, and an unknown name gets a 404. -/
theorem find_model_key_resolution_witness :
    (find_model_key ["fraud:1", "churn:2"] "churn" = some "churn:2" ↔
      keyMatchesName "churn:2" "churn"
      ∧ ∃ pre post, ["fraud:1", "churn:2"] = pre ++ "churn:2" :: post
          ∧ ∀ k ∈ pre, ¬ keyMatchesName k "churn")
    ∧ find_model_key ["fraud:1", "churn:2"] "fraud:1" = some "fraud:1"
    ∧ model_endpoint_status ["fraud:1", "churn:2"] "nope" = 404 :=
  ⟨(find_model_key_resolution ["fraud:1", "churn:2"] "churn").2.1
      (by decide) "churn:2",
   (find_model_key_resolution ["fraud:1", "churn:2"] "fraud:1").1 (by decide),
   (find_model_key_resolution ["fraud:1", "churn:2"] "nope").2.2 (by decide)⟩

end MLPlatform

namespace GitOps

/-! ## Deployment health predicate
(`test_gitops_controller_health.py`, `check_deployment_health`)

Kubernetes API objects are modelled field-by-field; every field the Python
code touches is `Option`-valued, as in the client library.  Python's
`x or d` on an integer-or-`None` is **not** `Option.getD`: it also replaces
a stored `0` by the default, since `0` is falsy. -/

/-- One entry of `deployment.status.conditions`. -/
structure DeploymentCondition where
  type : String
  status : String
  reason : String
  deriving Repr, DecidableEq

/-- `deployment.status`. -/
structure DeploymentStatus where
  ready_replicas : Option Nat
  available_replicas : Option Nat
  conditions : Option (List DeploymentCondition)
  deriving Repr, DecidableEq

/-- `deployment.spec`. -/
structure DeploymentSpec where
  replicas : Option Nat
  deriving Repr, DecidableEq

/-- A deployment record as the health check reads it. -/
structure Deployment where
  spec : DeploymentSpec
  status : Option DeploymentStatus
  deriving Repr, DecidableEq

/-- Python's `x or d` for an optional integer: `None` **and `0`** are falsy
and give the default. -/
def pyOrNat (v : Option Nat) (d : Nat) : Nat :=
  match v with
  | none => d
  | some n => if n = 0 then d else n

/-- The `for condition in status.conditions` loop of
`check_deployment_health`: the first condition of type `Available` or
`Progressing` whose status is not `"True"` produces the failure reason. -/
def checkConditions : List DeploymentCondition → Option String
  | [] => none
  | c :: rest =>
    if c.type = "Available" ∧ c.status ≠ "True" then
      some ("Deployment not available: " ++ c.reason)
    else if c.type = "Progressing" ∧ c.status ≠ "True" then
      some ("Deployment not progressing: " ++ c.reason)
    else checkConditions rest

/-- Embedding of `check_deployment_health`
(`test_gitops_controller_health.py`, lines 91–127). -/
def check_deployment_health (dep? : Option Deployment) : Bool × String :=
  match dep? with
  | none => (false, "Deployment not found")
  | some dep =>
    match dep.status with
    | none => (false, "Deployment status is None")
    | some st =>
      let desired_replicas := pyOrNat dep.spec.replicas 1
      let ready_replicas := pyOrNat st.ready_replicas 0
      let available_replicas := pyOrNat st.available_replicas 0
      if ready_replicas < desired_replicas then
        (false, "Not all replicas ready: " ++ toString ready_replicas
          ++ "/" ++ toString desired_replicas)
      else if available_replicas < desired_replicas then
        (false, "Not all replicas available: " ++ toString available_replicas
          ++ "/" ++ toString desired_replicas)
      else
        match checkConditions (st.conditions.getD []) with
        | some reason => (false, reason)
        | none => (true, "Healthy")

/-- The health predicate exactly as the claim words it: desired replicas
default to 1 **only when unset**, ready/available default to 0 when unset,
and every reported `Available`/`Progressing` condition must have status
`"True"`. -/
def claimHealthy (dep? : Option Deployment) : Bool :=
  match dep? with
  | none => false
  | some dep =>
    match dep.status with
    | none => false
    | some st =>
      let desired := dep.spec.replicas.getD 1
      decide (desired ≤ st.ready_replicas.getD 0)
      && decide (desired ≤ st.available_replicas.getD 0)
      && (st.conditions.getD []).all fun c =>
           ! ((c.type = "Available" || c.type = "Progressing")
              && ! (c.status = "True"))

/-- The first violated condition, in the check's order, as the amended
claim words it: the only change from the original claim is that desired
replicas default to 1 when unset **or when set to 0** (Python truthiness of
`spec.replicas or 1`). -/
def firstViolationSpec (dep? : Option Deployment) : Option String :=
  match dep? with
  | none => some "Deployment not found"
  | some dep =>
    match dep.status with
    | none => some "Deployment status is None"
    | some st =>
      let desired := pyOrNat dep.spec.replicas 1
      let ready := st.ready_replicas.getD 0
      let avail := st.available_replicas.getD 0
      if ready < desired then
        some ("Not all replicas ready: " ++ toString ready
          ++ "/" ++ toString desired)
      else if avail < desired then
        some ("Not all replicas available: " ++ toString avail
          ++ "/" ++ toString desired)
      else
        checkConditions (st.conditions.getD [])

/-- `pyOrNat` with default 0 is plain `Option.getD 0`. -/
lemma pyOrNat_zero (v : Option Nat) : pyOrNat v 0 = v.getD 0 := by
  cases v with
  | none => rfl
  | some n => cases n <;> simp [pyOrNat]

/-- The condition loop succeeds iff every reported `Available` or
`Progressing` condition has status `"True"`. -/
lemma checkConditions_eq_none_iff (cs : List DeploymentCondition) :
    checkConditions cs = none ↔
      ∀ c ∈ cs, (c.type = "Available" ∨ c.type = "Progressing") →
        c.status = "True" := by
  induction cs with
  | nil => simp [checkConditions]
  | cons c rest ih =>
    unfold checkConditions
    split_ifs with h1 h2
    · simp only [false_iff ]
      intro hall
      exact h1.2 (hall c (by simp) (Or.inl h1.1))
    · simp only [false_iff ]
      intro hall
      exact h2.2 (hall c (by simp) (Or.inr h2.1))
    · rw [ih]
      constructor
      · intro hall c' hc' hty
        rcases List.mem_cons.mp hc' with rfl | hc'
        · rcases hty with hty | hty
          · by_contra hst
            exact h1 ⟨hty, hst⟩
          · by_contra hst
            exact h2 ⟨hty, hst⟩
        · exact hall c' hc' hty
      · intro hall c' hc' hty
        exact hall c' (by simp [hc']) hty

end GitOps

namespace GitOps

/-- C3, counterexample.  A deployment whose spec stores `replicas = 0`
(scaled to zero) with no ready or available replicas: the claim's predicate
("desired defaults to 1 when unset") calls it healthy, but the code's
`spec.replicas or 1` also treats the stored `0` as falsy, so the check
fails with reason `"Not all replicas ready: 0/1"`. -/
theorem claim_health_iff_fails_at_zero_replicas :
    claimHealthy (some ⟨⟨some 0⟩, some ⟨none, none, none⟩⟩) = true
    ∧ check_deployment_health (some ⟨⟨some 0⟩, some ⟨none, none, none⟩⟩)
        = (false, "Not all replicas ready: 0/1") := by
  constructor <;> rfl

/-- C3, amended.  With desired replicas defaulting to 1 when unset **or
zero**, the check is healthy iff none of the failure conditions hold, and
on failure it reports exactly the first violated condition (in the order:
absent, no status, ready below desired, available below desired, first bad
`Available`/`Progressing` condition). -/
theorem check_deployment_health_amended (dep? : Option Deployment) :
    (check_deployment_health dep? =
      match firstViolationSpec dep? with
      | none => (true, "Healthy")
      | some reason => (false, reason))
    ∧ ((check_deployment_health dep?).1 = true ↔
        ∃ dep, dep? = some dep ∧ ∃ st, dep.status = some st
          ∧ pyOrNat dep.spec.replicas 1 ≤ st.ready_replicas.getD 0
          ∧ pyOrNat dep.spec.replicas 1 ≤ st.available_replicas.getD 0
          ∧ ∀ c ∈ st.conditions.getD [],
              (c.type = "Available" ∨ c.type = "Progressing") →
                c.status = "True") := by
  constructor
  · match dep? with
    | none => rfl
    | some dep =>
      match h : dep.status with
      | none => simp [check_deployment_health, firstViolationSpec, h]
      | some st =>
        simp only [check_deployment_health, firstViolationSpec, h,
          pyOrNat_zero]
        split_ifs
        · rfl
        · rfl
        · match hc : checkConditions (st.conditions.getD []) with
          | none => rfl
          | some reason => rfl
  · match dep? with
    | none => simp [check_deployment_health]
    | some dep =>
      match h : dep.status with
      | none => simp [check_deployment_health, h]
      | some st =>
        simp only [check_deployment_health, h, pyOrNat_zero]
        split_ifs with h1 h2
        · constructor
          · intro hfalse
            simp at hfalse
          · rintro ⟨dep', hdep', st', hst', hready, _⟩
            injection hdep' with hdep'
            subst hdep'
            rw [h] at hst'
            injection hst' with hst'
            subst hst'
            omega
        · constructor
          · intro hfalse
            simp at hfalse
          · rintro ⟨dep', hdep', st', hst', _, havail, _⟩
            injection hdep' with hdep'
            subst hdep'
            rw [h] at hst'
            injection hst' with hst'
            subst hst'
            omega
        · match hc : checkConditions (st.conditions.getD []) with
          | some reason =>
            constructor
            · intro hfalse
              simp at hfalse
            · rintro ⟨dep', hdep', st', hst', _, _, hconds⟩
              injection hdep' with hdep'
              subst hdep'
              rw [h] at hst'
              injection hst' with hst'
              subst hst'
              rw [(checkConditions_eq_none_iff _).mpr hconds] at hc
              exact absurd hc (by simp)
          | none =>
            constructor
            · intro _
              exact ⟨dep, rfl, st, h, by omega, by omega,
                (checkConditions_eq_none_iff _).mp hc⟩
            · intro _
              rfl

end GitOps

namespace MLPlatform

/-! ## Configuration manager (`config_manager.py`)

The dataclass defaults are carried over literally (`0.2 = 1/5`,
`0.1 = 1/10`).  Only the scalar fields read by `validate_config` need
modelling with their defaults; the hyperparameter mapping is carried as an
association list. -/

/-- `DataConfig` dataclass (`config_manager.py`, lines 20–29). -/
structure DataConfig where
  source : String := "local"
  format : String := "csv"
  target_column : String := "target"
  test_size : ℚ := 1/5
  validation_size : ℚ := 1/10
  s3_bucket : Option String := none
  s3_prefix : Option String := none
  deriving Repr, DecidableEq

/-- `ModelConfig` dataclass (lines 32–45); `__post_init__` fills the
default hyperparameters. -/
structure ModelConfig where
  type : String := "classification"
  algorithm : String := "random_forest"
  hyperparameters : List (String × Int) :=
    [("n_estimators", 100), ("max_depth", 10), ("random_state", 42)]
  deriving Repr, DecidableEq

/-- `PreprocessingConfig` dataclass (lines 48–56). -/
structure PreprocessingConfig where
  numeric_strategy : String := "standard"
  categorical_strategy : String := "onehot"
  handle_outliers : Bool := true
  feature_selection_enabled : Bool := true
  feature_selection_method : String := "k_best"
  feature_selection_k : Nat := 10
  deriving Repr, DecidableEq

/-- `MLOpsConfig` dataclass (lines 87–110), restricted to the sub-records
`validate_config` reads; `__post_init__` fills each with its defaults. -/
structure MLOpsConfig where
  environment : String := "dev"
  aws_region : String := "us-west-2"
  data : DataConfig := {}
  model : ModelConfig := {}
  preprocessing : PreprocessingConfig := {}
  deriving Repr, DecidableEq

/-- Embedding of `ConfigManager.validate_config` (`config_manager.py`,
lines 328–373): one error message per violation is accumulated (the
interpolated offending value is elided from the message text), and the
result is `True` exactly when the error list stays empty. -/
def validate_config (config : MLOpsConfig) : Bool :=
  let errors : List String :=
    (if config.model.type ∉ ["classification", "regression"] then
      ["Invalid model type"] else [])
    ++ (if config.model.algorithm ∉
          ["random_forest", "xgboost", "linear_regression",
           "logistic_regression"] then
      ["Invalid algorithm"] else [])
    ++ (if config.data.format ∉ ["csv", "parquet", "json"] then
      ["Invalid data format"] else [])
    ++ (if ¬ (0 < config.data.test_size ∧ config.data.test_size < 1) then
      ["Invalid test_size"] else [])
    ++ (if ¬ (0 < config.data.validation_size
              ∧ config.data.validation_size < 1) then
      ["Invalid validation_size"] else [])
    ++ (if config.preprocessing.numeric_strategy ∉
          ["standard", "minmax", "robust"] then
      ["Invalid numeric_strategy"] else [])
    ++ (if config.preprocessing.categorical_strategy ∉
          ["onehot", "ordinal", "label"] then
      ["Invalid categorical_strategy"] else [])
  errors.isEmpty

end MLPlatform

namespace MLPlatform

set_option maxHeartbeats 1000000 in
/-- C4.  `validate_config` accepts a configuration iff all seven checks
pass; in particular it rejects `model.type = "unknown"` and accepts the
all-defaults configuration. -/
theorem validate_config_iff :
    (∀ c : MLOpsConfig, validate_config c = true ↔
      (c.model.type = "classification" ∨ c.model.type = "regression")
      ∧ (c.model.algorithm = "random_forest" ∨ c.model.algorithm = "xgboost"
         ∨ c.model.algorithm = "linear_regression"
         ∨ c.model.algorithm = "logistic_regression")
      ∧ (c.data.format = "csv" ∨ c.data.format = "parquet"
         ∨ c.data.format = "json")
      ∧ (0 < c.data.test_size ∧ c.data.test_size < 1)
      ∧ (0 < c.data.validation_size ∧ c.data.validation_size < 1)
      ∧ (c.preprocessing.numeric_strategy = "standard"
         ∨ c.preprocessing.numeric_strategy = "minmax"
         ∨ c.preprocessing.numeric_strategy = "robust")
      ∧ (c.preprocessing.categorical_strategy = "onehot"
         ∨ c.preprocessing.categorical_strategy = "ordinal"
         ∨ c.preprocessing.categorical_strategy = "label"))
    ∧ validate_config { model := { type := "unknown" } } = false
    ∧ validate_config {} = true := by
  refine ⟨fun c => ?_, ?_, ?_⟩
  · simp only [validate_config, List.isEmpty_iff, List.append_eq_nil,
      ite_eq_right_iff, reduceCtorEq, imp_false, not_not, List.mem_cons,
      List.mem_singleton, List.not_mem_nil, or_false]
    simp only [and_assoc]
  · norm_num [validate_config]
    decide
  · norm_num [validate_config]

end MLPlatform

namespace MLPlatform

/-! ## Lightweight baseline monitor (`utils/monitoring.py`) -/

/-- The baseline statistics kept by the lightweight monitor, restricted to
what `detect_drift` reads: per-feature means and stds, as
insertion-ordered association lists. -/
structure BaselineStats where
  feature_means : List (String × ℚ)
  feature_stds : List (String × ℚ)
  deriving Repr, DecidableEq

/-- Python `dict` lookup on an association list (first binding wins). -/
def dictGet (m : List (String × ℚ)) (k : String) : Option ℚ :=
  (m.find? (fun kv => kv.1 = k)).map (·.2)

/-- The baseline std the code divides by
(`monitoring.py`, lines 98–103): `feature_stds.get(feature, 1.0)`,
then replaced by `1.0` if it is exactly `0`. -/
def stdForFeature (bs : BaselineStats) (feature : String) : ℚ :=
  let baseline_std := (dictGet bs.feature_stds feature).getD 1
  if baseline_std = 0 then 1 else baseline_std

/-- Outcome of `ModelMonitor.detect_drift`.  The no-baseline early return
carries only `drift_detected` and a message; its absent keys are modelled
as empty lists, and the normal path's absent message as `none`. -/
structure DriftResult where
  drift_detected : Bool
  drifted_features : List String
  drift_scores : List (String × ℚ)
  message : Option String
  deriving Repr, DecidableEq

/-- The per-feature loop of `detect_drift` (`monitoring.py`,
lines 96–110), over the current data's per-feature means in column order:
features absent from the baseline means are skipped, each present feature
gets the score `|current_mean − baseline_mean| / std`, and those whose
score exceeds the threshold are flagged. -/
def detectLoop (bs : BaselineStats) (threshold : ℚ) :
    List (String × ℚ) → List (String × ℚ) × List String
  | [] => ([], [])
  | (feature, current_mean) :: rest =>
    let prev := detectLoop bs threshold rest
    match dictGet bs.feature_means feature with
    | none => prev
    | some baseline_mean =>
      let drift_score := |current_mean - baseline_mean| / stdForFeature bs feature
      ((feature, drift_score) :: prev.1,
        if drift_score > threshold then feature :: prev.2 else prev.2)

/-- Embedding of `ModelMonitor.detect_drift` (`monitoring.py`,
lines 77–117).  The monitor's `drift_threshold` is fixed at `0.1 = 1/10` by
`__init__`; with no baseline set the result reports no drift. -/
def detect_drift (baseline : Option BaselineStats)
    (current_means : List (String × ℚ)) : DriftResult :=
  match baseline with
  | none =>
    { drift_detected := false, drifted_features := [], drift_scores := []
      message := some "No baseline set" }
  | some bs =>
    let r := detectLoop bs (1/10) current_means
    { drift_detected := !r.2.isEmpty
      drifted_features := r.2
      drift_scores := r.1
      message := none }

/-- The scoring rule exactly as the claim words it: the baseline std is
**floored** to `1.0`, i.e. `max std 1`. -/
def claimScore (bs : BaselineStats) (feature : String)
    (current_mean baseline_mean : ℚ) : ℚ :=
  |current_mean - baseline_mean|
    / max ((dictGet bs.feature_stds feature).getD 1) 1

/-- `detect_drift` exactly as the claim words it, differing from the code
only in flooring the std. -/
def claimDetectLoop (bs : BaselineStats) (threshold : ℚ) :
    List (String × ℚ) → List (String × ℚ) × List String
  | [] => ([], [])
  | (feature, current_mean) :: rest =>
    let prev := claimDetectLoop bs threshold rest
    match dictGet bs.feature_means feature with
    | none => prev
    | some baseline_mean =>
      let drift_score := claimScore bs feature current_mean baseline_mean
      ((feature, drift_score) :: prev.1,
        if drift_score > threshold then feature :: prev.2 else prev.2)

/-- `detect_drift` under the claim's reading. -/
def claimDetectDrift (baseline : Option BaselineStats)
    (current_means : List (String × ℚ)) : DriftResult :=
  match baseline with
  | none =>
    { drift_detected := false, drifted_features := [], drift_scores := []
      message := some "No baseline set" }
  | some bs =>
    let r := claimDetectLoop bs (1/10) current_means
    { drift_detected := !r.2.isEmpty
      drifted_features := r.2
      drift_scores := r.1
      message := none }

/-- Which current features end up flagged by the code's per-feature loop. -/
lemma detectLoop_flagged_iff (bs : BaselineStats) (th : ℚ) :
    ∀ (cur : List (String × ℚ)) (f : String),
      f ∈ (detectLoop bs th cur).2 ↔
        ∃ c b, (f, c) ∈ cur ∧ dictGet bs.feature_means f = some b
          ∧ |c - b| / stdForFeature bs f > th := by
  intro cur
  induction cur with
  | nil => simp [detectLoop]
  | cons e rest ih =>
    intro f
    obtain ⟨g, c0⟩ := e
    unfold detectLoop
    match hg : dictGet bs.feature_means g with
    | none =>
      simp only [hg]
      rw [ih f]
      constructor
      · rintro ⟨c, b, hmem, hb, hsc⟩
        exact ⟨c, b, by simp [hmem], hb, hsc⟩
      · rintro ⟨c, b, hmem, hb, hsc⟩
        rcases List.mem_cons.mp hmem with heq | hmem'
        · injection heq with h1 h2
          subst h1
          rw [hg] at hb
          exact absurd hb (by simp)
        · exact ⟨c, b, hmem', hb, hsc⟩
    | some b0 =>
      simp only [hg]
      by_cases hth : |c0 - b0| / stdForFeature bs g > th
      · rw [if_pos hth]
        simp only [List.mem_cons]
        constructor
        · rintro (rfl | hf)
          · exact ⟨c0, b0, by simp, hg, hth⟩
          · obtain ⟨c, b, hmem, hb, hsc⟩ := (ih f).mp hf
            exact ⟨c, b, by simp [hmem], hb, hsc⟩
        · rintro ⟨c, b, hmem, hb, hsc⟩
          rcases hmem with heq | hmem'
          · injection heq with h1 h2
            subst h1
            exact Or.inl rfl
          · exact Or.inr ((ih f).mpr ⟨c, b, hmem', hb, hsc⟩)
      · rw [if_neg hth]
        rw [ih f]
        constructor
        · rintro ⟨c, b, hmem, hb, hsc⟩
          exact ⟨c, b, by simp [hmem], hb, hsc⟩
        · rintro ⟨c, b, hmem, hb, hsc⟩
          rcases List.mem_cons.mp hmem with heq | hmem'
          · injection heq with h1 h2
            subst h1
            subst h2
            rw [hg] at hb
            injection hb with hb
            subst hb
            exact absurd hsc hth
          · exact ⟨c, b, hmem', hb, hsc⟩

/-- Which scores the code's per-feature loop records. -/
lemma detectLoop_scores_iff (bs : BaselineStats) (th : ℚ) :
    ∀ (cur : List (String × ℚ)) (f : String) (s : ℚ),
      (f, s) ∈ (detectLoop bs th cur).1 ↔
        ∃ c b, (f, c) ∈ cur ∧ dictGet bs.feature_means f = some b
          ∧ s = |c - b| / stdForFeature bs f := by
  intro cur
  induction cur with
  | nil => simp [detectLoop]
  | cons e rest ih =>
    intro f s
    obtain ⟨g, c0⟩ := e
    unfold detectLoop
    match hg : dictGet bs.feature_means g with
    | none =>
      simp only [hg]
      rw [ih f s]
      constructor
      · rintro ⟨c, b, hmem, hb, hsc⟩
        exact ⟨c, b, by simp [hmem], hb, hsc⟩
      · rintro ⟨c, b, hmem, hb, hsc⟩
        rcases List.mem_cons.mp hmem with heq | hmem'
        · injection heq with h1 h2
          subst h1
          rw [hg] at hb
          exact absurd hb (by simp)
        · exact ⟨c, b, hmem', hb, hsc⟩
    | some b0 =>
      simp only [hg]
      have hsplit :
          ((f, s) ∈ (g, |c0 - b0| / stdForFeature bs g) :: (detectLoop bs th rest).1) ↔
            (f = g ∧ s = |c0 - b0| / stdForFeature bs g)
              ∨ (f, s) ∈ (detectLoop bs th rest).1 := by
        simp [Prod.ext_iff]
      rw [hsplit, ih f s]
      constructor
      · rintro (⟨rfl, rfl⟩ | ⟨c, b, hmem, hb, hsc⟩)
        · exact ⟨c0, b0, by simp, hg, rfl⟩
        · exact ⟨c, b, by simp [hmem], hb, hsc⟩
      · rintro ⟨c, b, hmem, hb, hsc⟩
        rcases List.mem_cons.mp hmem with heq | hmem'
        · injection heq with h1 h2
          subst h1
          subst h2
          rw [hg] at hb
          injection hb with hb
          subst hb
          exact Or.inl ⟨rfl, hsc⟩
        · exact Or.inr ⟨c, b, hmem', hb, hsc⟩

end MLPlatform

namespace MLPlatform

/-- C6, counterexample.  Baseline feature `x` with mean 0 and std `1/2`,
current mean `3/50 = 0.06`: the code divides by the *raw* std `1/2`,
scoring `0.12 > 0.1` and reporting drift, while the claim's "std floored
to 1.0" scores `0.06 ≤ 0.1` and reports no drift. -/
theorem detect_drift_std_not_floored :
    (detect_drift (some ⟨[("x", 0)], [("x", 1/2)]⟩) [("x", 3/50)]).drift_detected
      = true
    ∧ (claimDetectDrift (some ⟨[("x", 0)], [("x", 1/2)]⟩) [("x", 3/50)]).drift_detected
      = false := by
  have habs : |(3:ℚ)/50| = 3/50 := abs_of_pos (by norm_num)
  constructor
  · norm_num [detect_drift, detectLoop, dictGet, stdForFeature, List.find?,
      habs]
  · norm_num [claimDetectDrift, claimDetectLoop, claimScore, dictGet,
      stdForFeature, List.find?, habs]

/-- C6, amended.  `detect_drift` scores each current feature present in the
baseline means as `|current_mean − baseline_mean| / std`, where the std is
the recorded baseline std, taken as `1.0` when missing or when exactly `0`
(not floored at `1.0`); a feature is flagged iff its score exceeds `0.1`,
the result is drifted iff some feature is flagged, and with no baseline the
result is not drifted. -/
theorem detect_drift_characterization :
    (∀ cur, (detect_drift none cur).drift_detected = false)
    ∧ (∀ (bs : BaselineStats) (cur : List (String × ℚ)),
        ((detect_drift (some bs) cur).drift_detected = true ↔
          (detect_drift (some bs) cur).drifted_features ≠ [])
        ∧ (∀ f, f ∈ (detect_drift (some bs) cur).drifted_features ↔
            ∃ c b, (f, c) ∈ cur ∧ dictGet bs.feature_means f = some b
              ∧ |c - b| / stdForFeature bs f > 1/10)
        ∧ (∀ f s, (f, s) ∈ (detect_drift (some bs) cur).drift_scores ↔
            ∃ c b, (f, c) ∈ cur ∧ dictGet bs.feature_means f = some b
              ∧ s = |c - b| / stdForFeature bs f)) := by
  refine ⟨fun cur => rfl, fun bs cur => ⟨?_, fun f => ?_, fun f s => ?_⟩⟩
  · show (!(detectLoop bs (1/10) cur).2.isEmpty) = true ↔
      (detectLoop bs (1/10) cur).2 ≠ []
    simp [List.isEmpty_iff]
  · exact detectLoop_flagged_iff bs (1/10) cur f
  · exact detectLoop_scores_iff bs (1/10) cur f s

end MLPlatform

namespace MLPlatform

/-! ## Lightweight monitor prediction history (`utils/monitoring.py`) -/

/-- A record appended by `ModelMonitor.log_prediction` (`monitoring.py`,
lines 61–68): timestamp, sample count, prediction mean/std, latency, and
per-feature means. -/
structure PredRecord where
  timestamp : String
  num_samples : Nat
  prediction_mean : ℚ
  prediction_std : ℚ
  latency_ms : ℚ
  feature_means : List (String × ℚ)
  deriving Repr, DecidableEq

/-- Embedding of `ModelMonitor.log_prediction` (`monitoring.py`,
lines 50–75), as the transformation of the `prediction_history` list: the
record is appended, then the list is truncated to its last 1000 entries
(`self.prediction_history[-1000:]`) whenever it exceeds 1000. -/
def log_prediction (history : List PredRecord) (record : PredRecord) :
    List PredRecord :=
  if (history ++ [record]).length > 1000 then
    (history ++ [record]).drop ((history ++ [record]).length - 1000)
  else history ++ [record]

/-- One `log_prediction` step always keeps exactly the most recent
1000-entry suffix of `history ++ [record]`. -/
lemma log_prediction_eq (history : List PredRecord) (record : PredRecord) :
    log_prediction history record
      = (history ++ [record]).drop (history.length + 1 - 1000) := by
  have hlen : (history ++ [record]).length = history.length + 1 := by simp
  unfold log_prediction
  rw [hlen]
  split_ifs with hgt
  · rfl
  · have h0 : history.length + 1 - 1000 = 0 := by omega
    rw [h0, List.drop_zero]

/-- Folding `log_prediction` from any short-enough history keeps exactly
the most recent 1000-entry suffix. -/
lemma log_prediction_foldl (records : List PredRecord) :
    ∀ history : List PredRecord, history.length ≤ 1000 →
      records.foldl log_prediction history
        = (history ++ records).drop (history.length + records.length - 1000) := by
  induction records with
  | nil =>
    intro history hle
    simp only [List.foldl_nil, List.length_nil, Nat.add_zero, List.append_nil]
    have h0 : history.length - 1000 = 0 := by omega
    rw [h0, List.drop_zero]
  | cons r rs ih =>
    intro history hle
    have hlen : (history ++ [r]).length = history.length + 1 := by simp
    have hlen1 : ((history ++ [r]).drop (history.length + 1 - 1000)).length ≤ 1000 := by
      rw [List.length_drop, hlen]
      omega
    have hswap : ((history ++ [r]).drop (history.length + 1 - 1000)) ++ rs
        = ((history ++ [r]) ++ rs).drop (history.length + 1 - 1000) :=
      (List.drop_append_of_le_length
        (show history.length + 1 - 1000 ≤ (history ++ [r]).length by
          rw [hlen]; omega)).symm
    have hassoc : (history ++ [r]) ++ rs = history ++ r :: rs := by
      rw [List.append_assoc, List.singleton_append]
    rw [List.foldl_cons, log_prediction_eq, ih _ hlen1, hswap,
      List.drop_drop, hassoc]
    have hidx : history.length + 1 - 1000
        + (((history ++ [r]).drop (history.length + 1 - 1000)).length
           + rs.length - 1000)
        = history.length + (r :: rs).length - 1000 := by
      rw [List.length_drop, hlen, List.length_cons]
      omega
    rw [hidx]

end MLPlatform

namespace MLPlatform

/-- C9.  The lightweight monitor's prediction history is capped: after any
sequence of `log_prediction` calls starting from the empty history, the
list is exactly the most recent 1000-entry suffix of the appended records
(hence at most 1000 long).  By contrast, every `run_monitoring` call of the
statistical monitor appends exactly one entry to its history, which
therefore grows without bound. -/
theorem prediction_history_capped_monitoring_history_unbounded :
    (∀ records : List PredRecord,
      (records.foldl log_prediction []).length ≤ 1000
      ∧ records.foldl log_prediction []
          = records.drop (records.length - 1000))
    ∧ (∀ (d : DriftBlock) (p : Option PerfBlock) (h : List MonitoringResults),
        (run_monitoring d p h).2 = h ++ [(run_monitoring d p h).1])
    ∧ (∀ (h : List MonitoringResults)
        (calls : List (DriftBlock × Option PerfBlock)),
        (calls.foldl (fun acc c => (run_monitoring c.1 c.2 acc).2) h).length
          = h.length + calls.length) := by
  refine ⟨fun records => ?_, fun d p h => rfl, fun h calls => ?_⟩
  · have hfold := log_prediction_foldl records [] (by simp)
    simp only [List.nil_append, List.length_nil, Nat.zero_add] at hfold
    refine ⟨?_, hfold⟩
    rw [hfold]
    simp only [List.length_drop]
    omega
  · induction calls generalizing h with
    | nil => simp
    | cons c cs ih =>
      rw [List.foldl_cons]
      rw [ih]
      simp [run_monitoring]
      omega

end MLPlatform

namespace MLPlatform

/-! ## Training pipeline three-way split (`training_pipeline.py`)

`split_data` chains two library `train_test_split` calls.  The library
shuffles the rows with the fixed seed and splits off the requested
fraction; the shuffles are modelled as arbitrary permutations (the seed
fixes one), supplied as explicit reorderings with permutation
hypotheses. -/

/-- The adjusted second-split fraction `val_size / (1 - test_size)`
(`training_pipeline.py`, line 250). -/
def val_size_adjusted (test_size val_size : ℚ) : ℚ :=
  val_size / (1 - test_size)

/-- Embedding of `split_data` (`training_pipeline.py`, lines 226–257),
content-wise.  `shuffled` is the seed-42 reordering of the input rows; the
first split peels off `n_test` rows as the test part and leaves the rest;
`reshuffled` is the second split's reordering of that rest, from which
`n_val` rows become the validation part and the remainder the training
part.  Returns `(train, val, test)`. -/
def split_data {α : Type _} (shuffled reshuffled : List α)
    (n_test n_val : Nat) : List α × List α × List α :=
  (reshuffled.drop n_val, reshuffled.take n_val, shuffled.take n_test)

end MLPlatform

namespace MLPlatform

/-- C7.  With `0 < t < 1` and `0 < v < 1 − t`: the validation share of the
original rows is `(1 − t) · (v / (1 − t)) = v` exactly, the train share is
`1 − t − v`, and the three parts of `split_data` together are a
permutation of the input rows (every row exactly once). -/
theorem split_data_exact_shares_and_partition {α : Type _}
    (rows shuffled reshuffled : List α) (n_test n_val : Nat) (t v : ℚ)
    (ht0 : 0 < t) (ht1 : t < 1) (hv0 : 0 < v) (hv1 : v < 1 - t)
    (hshuffle : shuffled.Perm rows)
    (hreshuffle : reshuffled.Perm (shuffled.drop n_test)) :
    ((1 - t) * val_size_adjusted t v = v)
    ∧ ((1 - t) * (1 - val_size_adjusted t v) = 1 - t - v)
    ∧ (((split_data shuffled reshuffled n_test n_val).1
        ++ (split_data shuffled reshuffled n_test n_val).2.1
        ++ (split_data shuffled reshuffled n_test n_val).2.2).Perm rows)
    ∧ ((split_data shuffled reshuffled n_test n_val).1.length
        + (split_data shuffled reshuffled n_test n_val).2.1.length
        + (split_data shuffled reshuffled n_test n_val).2.2.length
        = rows.length) := by
  have hne : (1 : ℚ) - t ≠ 0 := by
    intro h
    rw [sub_eq_zero] at h
    exact absurd h.symm (ne_of_lt ht1)
  have hshare : (1 - t) * val_size_adjusted t v = v := by
    unfold val_size_adjusted
    rw [mul_comm, div_mul_cancel₀ v hne]
  have htrain : (1 - t) * (1 - val_size_adjusted t v) = 1 - t - v := by
    rw [mul_sub, mul_one, hshare]
  have hperm : ((split_data shuffled reshuffled n_test n_val).1
      ++ (split_data shuffled reshuffled n_test n_val).2.1
      ++ (split_data shuffled reshuffled n_test n_val).2.2).Perm rows := by
    show ((reshuffled.drop n_val ++ reshuffled.take n_val)
      ++ shuffled.take n_test).Perm rows
    have h1 : (reshuffled.drop n_val ++ reshuffled.take n_val).Perm reshuffled := by
      refine (List.perm_append_comm).trans ?_
      rw [List.take_append_drop]
    have h2 : ((reshuffled.drop n_val ++ reshuffled.take n_val)
        ++ shuffled.take n_test).Perm (reshuffled ++ shuffled.take n_test) :=
      h1.append_right _
    have h3 : (reshuffled ++ shuffled.take n_test).Perm
        (shuffled.drop n_test ++ shuffled.take n_test) :=
      hreshuffle.append_right _
    have h4 : (shuffled.drop n_test ++ shuffled.take n_test).Perm shuffled := by
      refine (List.perm_append_comm).trans ?_
      rw [List.take_append_drop]
    exact ((h2.trans h3).trans h4).trans hshuffle
  refine ⟨hshare, htrain, hperm, ?_⟩
  have := hperm.length_eq
  simpa [List.length_append, Nat.add_assoc] using this

/-- Witness for C7: five rows, `t = 1/5`, `v = 1/10`, one test row peeled
off, the remainder reshuffled before the second split. -/
theorem split_data_exact_shares_and_partition_witness :
    ((1 - (1:ℚ)/5) * val_size_adjusted (1/5) (1/10) = 1/10)
    ∧ ((1 - (1:ℚ)/5) * (1 - val_size_adjusted (1/5) (1/10)) = 1 - 1/5 - 1/10)
    ∧ (((split_data [0, 1, 2, 3, 4] [4, 3, 2, 1] 1 2).1
        ++ (split_data [0, 1, 2, 3, 4] [4, 3, 2, 1] 1 2).2.1
        ++ (split_data [0, 1, 2, 3, 4] [4, 3, 2, 1] 1 2).2.2).Perm
          [0, 1, 2, 3, 4])
    ∧ ((split_data [0, 1, 2, 3, 4] [4, 3, 2, 1] 1 2).1.length
        + (split_data [0, 1, 2, 3, 4] [4, 3, 2, 1] 1 2).2.1.length
        + (split_data [0, 1, 2, 3, 4] [4, 3, 2, 1] 1 2).2.2.length
        = ([0, 1, 2, 3, 4] : List Nat).length) :=
  split_data_exact_shares_and_partition [0, 1, 2, 3, 4] [0, 1, 2, 3, 4]
    [4, 3, 2, 1] 1 2 (1/5) (1/10)
    (by norm_num) (by norm_num) (by norm_num) (by norm_num)
    (List.Perm.refl _) (by decide)

end MLPlatform

namespace MLPlatform

/-! ## Configuration deep merge (`config_manager.py`) -/

/-- A Python value as the deep merge sees it: either a nested dict
(insertion-ordered association list) or any non-dict value (an atom). -/
inductive PyVal where
  | atom (n : Int)
  | dict (entries : List (String × PyVal))

/-- Python dict lookup: the value stored under a key, if present. -/
def lookupKey : List (String × PyVal) → String → Option PyVal
  | [], _ => none
  | (k', v') :: rest, k => if k' = k then some v' else lookupKey rest k

/-- Python dict assignment `d[k] = v`: updates the existing binding in
place, else appends a new one. -/
def setKey : List (String × PyVal) → String → PyVal → List (String × PyVal)
  | [], k, v => [(k, v)]
  | (k', v') :: rest, k, v =>
    if k' = k then (k, v) :: rest else (k', v') :: setKey rest k v

/-- Embedding of `ConfigManager._deep_merge` (`config_manager.py`,
lines 217–227): starting from a copy of `base`, each override entry either
recursively merges (when both sides hold dicts) or overwrites. -/
def deep_merge (result : List (String × PyVal)) :
    List (String × PyVal) → List (String × PyVal)
  | [] => result
  | (k, v) :: rest =>
    match lookupKey result k, v with
    | some (.dict b), .dict o =>
      deep_merge (setKey result k (.dict (deep_merge b o))) rest
    | _, _ => deep_merge (setKey result k v) rest
termination_by l => sizeOf l
decreasing_by
  all_goals simp_wf
  all_goals omega

/-- Per-key merge outcome as the claim words it: a key only in base keeps
base's value, dict-vs-dict merges recursively by the same rule, any other
conflict (and a key only in override) takes override's value. -/
def mergeSpec : Option PyVal → Option PyVal → Option PyVal
  | bv, none => bv
  | some (.dict b), some (.dict o) => some (.dict (deep_merge b o))
  | _, some v => some v

/-- Merging nothing changes nothing. -/
lemma deep_merge_nil (result : List (String × PyVal)) :
    deep_merge result [] = result := by
  rw [deep_merge]

/-- One override entry is folded in by updating its key, recursing exactly
when both sides hold dicts. -/
lemma deep_merge_cons (result : List (String × PyVal)) (k : String)
    (v : PyVal) (rest : List (String × PyVal)) :
    deep_merge result ((k, v) :: rest)
      = deep_merge (setKey result k
          (match lookupKey result k, v with
           | some (.dict b), .dict o => .dict (deep_merge b o)
           | _, _ => v)) rest := by
  conv_lhs => rw [deep_merge.eq_def]
  dsimp only
  match hb : lookupKey result k, v with
  | some (.dict b), .dict o => rfl
  | none, .atom n => rfl
  | none, .dict o => rfl
  | some (.atom m), .atom n => rfl
  | some (.atom m), .dict o => rfl
  | some (.dict b), .atom n => rfl

/-- `mergeSpec` with no override value keeps the base value. -/
lemma mergeSpec_none (bv : Option PyVal) : mergeSpec bv none = bv := by
  match bv with
  | none => rfl
  | some (.atom n) => rfl
  | some (.dict es) => rfl

/-- Looking a key up after a `setKey`. -/
lemma lookupKey_setKey (m : List (String × PyVal)) (k : String) (v : PyVal)
    (q : String) :
    lookupKey (setKey m k v) q = if k = q then some v else lookupKey m q := by
  induction m with
  | nil => rfl
  | cons e rest ih =>
    obtain ⟨k', v'⟩ := e
    unfold setKey
    by_cases hk : k' = k
    · rw [if_pos hk]
      subst hk
      by_cases hq : k' = q
      · simp [lookupKey, hq]
      · simp [lookupKey, hq]
    · rw [if_neg hk]
      by_cases hq' : k' = q
      · subst hq'
        have hkq : ¬ k = k' := fun h => hk h.symm
        simp [lookupKey, hkq]
      · simp [lookupKey, hq', ih]

/-- A key absent from a dict's key list looks up to nothing. -/
lemma lookupKey_eq_none_of_not_mem (m : List (String × PyVal)) (k : String)
    (h : k ∉ m.map Prod.fst) : lookupKey m k = none := by
  induction m with
  | nil => rfl
  | cons e rest ih =>
    obtain ⟨k', v'⟩ := e
    unfold lookupKey
    rw [List.map_cons, List.mem_cons] at h
    push_neg at h
    rw [if_neg (fun he => h.1 he.symm)]
    exact ih h.2

end MLPlatform

namespace MLPlatform

/-- C8.  Deep-merge characterization, per key: a key only in base keeps
base's value, a key only in override gets override's value, dict-vs-dict
conflicts merge recursively by the same rule, any other conflict takes
override's value (all captured by `mergeSpec`); and merging with an empty
override returns base unchanged.  The override's keys are distinct, as
they are for any Python dict. -/
theorem deep_merge_characterization (base override : List (String × PyVal))
    (k : String) (hnodup : (override.map Prod.fst).Nodup) :
    lookupKey (deep_merge base override) k
      = mergeSpec (lookupKey base k) (lookupKey override k)
    ∧ deep_merge base [] = base := by
  refine ⟨?_, deep_merge_nil base⟩
  induction override generalizing base with
  | nil =>
    rw [deep_merge_nil]
    exact (mergeSpec_none (lookupKey base k)).symm
  | cons e rest ih =>
    obtain ⟨ko, vo⟩ := e
    rw [List.map_cons, List.nodup_cons] at hnodup
    obtain ⟨hko, hrest⟩ := hnodup
    rw [deep_merge_cons, ih _ hrest, lookupKey_setKey]
    by_cases hkq : ko = k
    · subst hkq
      rw [lookupKey_eq_none_of_not_mem rest ko hko, if_pos rfl,
        mergeSpec_none]
      have hover : lookupKey ((ko, vo) :: rest) ko = some vo := by
        simp [lookupKey]
      rw [hover]
      match hb : lookupKey base ko, vo with
      | some (.dict b), .dict o => rfl
      | none, .atom n => rfl
      | none, .dict o => rfl
      | some (.atom m), .atom n => rfl
      | some (.atom m), .dict o => rfl
      | some (.dict b), .atom n => rfl
    · rw [if_neg hkq]
      have hover : lookupKey ((ko, vo) :: rest) k = lookupKey rest k := by
        simp [lookupKey, hkq]
      rw [hover]

/-- Witness for C8: a nested merge where `"a"` lives only in base, `"b"`
only in override, and `"n"` holds dicts on both sides. -/
theorem deep_merge_characterization_witness :
    (lookupKey
        (deep_merge
          [("a", .atom 1), ("n", .dict [("x", .atom 1), ("y", .atom 2)])]
          [("n", .dict [("y", .atom 9), ("z", .atom 3)]), ("b", .atom 7)])
        "n"
      = mergeSpec
          (lookupKey
            [("a", .atom 1), ("n", .dict [("x", .atom 1), ("y", .atom 2)])]
            "n")
          (lookupKey
            [("n", .dict [("y", .atom 9), ("z", .atom 3)]), ("b", .atom 7)]
            "n"))
    ∧ deep_merge
        [("a", .atom 1), ("n", .dict [("x", .atom 1), ("y", .atom 2)])] []
      = [("a", .atom 1), ("n", .dict [("x", .atom 1), ("y", .atom 2)])] :=
  deep_merge_characterization
    [("a", .atom 1), ("n", .dict [("x", .atom 1), ("y", .atom 2)])]
    [("n", .dict [("y", .atom 9), ("z", .atom 3)]), ("b", .atom 7)]
    "n" (by decide)

end MLPlatform
